import Mathlib

/-!
Verification of the `blueprint-mongodb` resource-controller layer.

The development shallowly embeds the JavaScript `ResourceController`
(two revisions of the file are present in the repository; we refer to
them as `v0` and `v1`), together with the `Population` module, and
proves the stated properties about them.

Conventions of the embedding:
* JavaScript's untyped values are modelled by `JSValue`; truthiness is
  `isTruthy` / `isFalsy` (`NaN` is not modelled, dates are modelled as
  `Int` millisecond timestamps).
* A node-style callback pipeline `(err, result)` is modelled as
  `Except HttpError _`: `.error` is the pipeline aborting with the
  error handed to the final callback, `.ok` is the successful value.
* The database call of each action is an input of the embedded
  `execute` function: the error argument `dbErr : JSValue` and the
  result delivered to the callback.  Hooks (`authorize`,
  `prepareFilter`, ...) are taken at their defaults, which is the
  configuration all claims are about.
-/

/-- The universe of JavaScript values used by the controller.  Objects and
arrays are identified abstractly; both are always truthy. -/
inductive JSValue where
  | null
  | undefined
  | boolean (b : Bool)
  | number (n : Int)
  | string (s : String)
  | object (oid : Nat)
  | array (aid : Nat)
deriving DecidableEq, Repr

/-- JavaScript falsiness: `null`, `undefined`, `false`, `0` and the empty
string are falsy, every object or array is truthy. -/
def isFalsy : JSValue → Bool
  | JSValue.null => true
  | JSValue.undefined => true
  | JSValue.boolean b => !b
  | JSValue.number n => n == 0
  | JSValue.string s => s == ""
  | JSValue.object _ => false
  | JSValue.array _ => false

/-- JavaScript truthiness, the negation of `isFalsy`. -/
def isTruthy (v : JSValue) : Bool := !(isFalsy v)

/-- Embeds `blueprint.errors.HttpError`: an HTTP status code with a message. -/
structure HttpError where
  statusCode : Nat
  message : String
deriving DecidableEq, Repr

/-- Errors produced during the `validate` phase: either an `HttpError`
or the (truthy) result of `req.validationErrors ()`. -/
inductive CtrlError where
  | http (e : HttpError)
  | validation (msgs : List String)
deriving DecidableEq, Repr

/-- A database document: its `_id`, the timestamp returned by
`getLastModified ()` (milliseconds), and its data fields. -/
structure Document where
  id : String
  lastModified : Int
  fields : List (String × Int)
deriving DecidableEq, Repr

/-- A JSON value appearing inside a response envelope. -/
inductive Json where
  | bool (b : Bool)
  | num (n : Int)
  | str (s : String)
  | doc (d : Document)
  | docs (ds : List Document)
deriving DecidableEq, Repr

/-- The JSON body handed to `res.json`: a one-level object, or the bare
boolean that the delete action returns. -/
inductive ResBody where
  | obj (entries : List (String × Json))
  | jsonBool (b : Bool)
deriving DecidableEq, Repr

/-- The response eventually produced by `res.status (...).json (...)`. -/
structure HttpResponse where
  status : Nat
  body : ResBody
deriving DecidableEq, Repr

/-- The observable outcome of an action's `execute` function: the HTTP
response (or error handed to the framework), the events emitted via
`messaging.emit`, and the `Last-Modified` header set via `res.set`. -/
structure ExecResult where
  response : Except HttpError HttpResponse
  events : List (String × Document) := []
  lastModifiedHeader : Option String := none

/-- Models `Date.prototype.toUTCString` on a millisecond timestamp.  Only
injectivity of the rendering matters for the properties proved here. -/
def toUTCString (t : Int) : String := toString t ++ " GMT"

namespace DateUtils

/-- Modelled from the spec: the repository's `./DateUtils` module is not
among the provided sources.  Its `compare` is the three-way comparator
on dates used for the `Last-Modified` / `If-Modified-Since` convention:
`-1` when the first date is earlier, `1` when it is later, `0` on equal
dates (both call sites only ever test the result against `-1`). -/
def compare (a b : Int) : Int :=
  if a < b then -1 else if b < a then 1 else 0

end DateUtils

/-- First value stored under a key of a one-level JSON object. -/
def lookupKey (l : List (String × Json)) (k : String) : Option Json :=
  (l.find? (fun kv => kv.1 == k)).map (fun kv => kv.2)

/-- Underscore's `_.extend (base, ext)`: keys of `base` keep their
position but take the value from `ext` when present there; keys only in
`ext` are appended in order. -/
def extendObj (base ext : List (String × Json)) : List (String × Json) :=
  (base.map (fun kv =>
    match lookupKey ext kv.1 with
    | some v => (kv.1, v)
    | none => kv))
  ++ ext.filter (fun kv => (lookupKey base kv.1).isNone)

/-- Embeds `makeDbCompletionHandler (errMsg, callback)` (identical in both
revisions): on a (truthy) database error fail with `400` and the
action's message, on a falsy result fail with `404 Not Found`,
otherwise pass the result on.  The JavaScript `!result` test is
rendered by `refine`, which maps exactly the falsy values of the value
universe `α` at the call site to `none` (`jsRefine` for raw values;
the identity where the driver delivers `Option Document` or
`Option (List Document)`, null being the only falsy such value, since
documents and arrays are truthy objects). -/
def makeDbCompletionHandler {α β : Type} (refine : α → Option β)
    (errMsg : String) (err : JSValue) (result : α) : Except HttpError β :=
  if isTruthy err then Except.error ⟨400, errMsg⟩
  else
    match refine result with
    | none => Except.error ⟨404, "Not Found"⟩
    | some r => Except.ok r

/-- The refinement of a raw `JSValue` result: falsy values are `none`. -/
def jsRefine (v : JSValue) : Option JSValue :=
  if isFalsy v then none else some v

/-- Embeds `makeTaskCompletionHandler (res, callback)`: forward a waterfall
error to the framework callback, otherwise respond
`res.status (200).json (result)`. -/
def makeTaskCompletionHandler (r : Except HttpError ResBody) : Except HttpError HttpResponse :=
  match r with
  | Except.error e => Except.error e
  | Except.ok body => Except.ok { status := 200, body := body }

/-- Embeds `ResourceController.prototype.computeEventName`: the configured
event stem (`opts.eventPrefix`, possibly absent) followed by the
controller name and the action, dot-separated; an absent or empty stem
contributes nothing. -/
def computeEventName (eventStem : Option String) (name action : String) : String :=
  let pre := eventStem.getD ""
  let pre := if pre.length != 0 then pre ++ "." else pre
  pre ++ name ++ "." ++ action

/-- The part of the request visible to the `validate` functions. -/
structure Request where
  params : String → JSValue

/-- Embeds `checkIdThenAuthorize (id, next)` (identical in both revisions):
fail with `400 Missing resource id` when the id parameter is falsy,
otherwise pass control to `next`. -/
def checkIdThenAuthorize (idKey : String)
    (next : Request → Except CtrlError Unit) (req : Request) : Except CtrlError Unit :=
  if isFalsy (req.params idKey) then Except.error (CtrlError.http ⟨400, "Missing resource id"⟩)
  else next req

/-- The `validate` member of the `get` action. -/
def get_validate (idKey : String) (onAuthorize : Request → Except CtrlError Unit) :
    Request → Except CtrlError Unit :=
  checkIdThenAuthorize idKey onAuthorize

/-- The `validate` member of the `delete` action. -/
def delete_validate (idKey : String) (onAuthorize : Request → Except CtrlError Unit) :
    Request → Except CtrlError Unit :=
  checkIdThenAuthorize idKey onAuthorize

/-- The `validate` member of the `update` action: after the id check it
runs the body validation (`req.checkBody` / `req.validationErrors`,
whose truthy outcome is `some msgs`) and then the authorize hook. -/
def update_validate (idKey : String)
    (validationErrors : Request → Option (List String))
    (onAuthorize : Request → Except CtrlError Unit) :
    Request → Except CtrlError Unit :=
  checkIdThenAuthorize idKey (fun req =>
    match validationErrors req with
    | some msgs => Except.error (CtrlError.validation msgs)
    | none => onAuthorize req)

/-- Embeds `isProjectionExclusive` (identical in both revisions): an empty
projection is exclusive; otherwise only the value under the first
enumerated key is consulted, and the projection is exclusive exactly
when that value is `false` or `0`.  A projection object is modelled as
its key/value pairs in enumeration order. -/
def isProjectionExclusive (projection : List (String × JSValue)) : Bool :=
  match projection with
  | [] => true
  | (_, value) :: _ => value == JSValue.boolean false || value == JSValue.number 0

/-- Embeds `create (...).execute` of `v1`, from the `Model.create` callback on
(hooks at their defaults): `dbErr` and `created` are the arguments the
driver hands to `makeDbCompletionHandler`.  On success the created
event is emitted with the database result, the `Last-Modified` header
is set from it, and the document is wrapped under the model name. -/
def create_execute (name : String) (eventStem : Option String)
    (dbErr : JSValue) (created : Option Document) : ExecResult :=
  match makeDbCompletionHandler id "Failed to create resource" dbErr created with
  | Except.error e => { response := Except.error e }
  | Except.ok doc =>
      { response := makeTaskCompletionHandler (Except.ok (ResBody.obj [(name, Json.doc doc)])),
        events := [(computeEventName eventStem name "created", doc)],
        lastModifiedHeader := some (toUTCString doc.lastModified) }

/-- Embeds `get (...).execute` of `v1`, from the `findOne` callback on (hooks
at their defaults): sets the `Last-Modified` header from the found
document, then checks `If-Modified-Since` (already parsed to a
timestamp when present) and fails with `304 Not Changed` unless the
document was modified strictly after the header date; otherwise
responds with the document wrapped under the model name, extended with
the population details when the request asked to populate. -/
def get_execute (name : String) (dbErr : JSValue) (found : Option Document)
    (ifModifiedSince : Option Int) (populateQuery : Bool)
    (details : List (String × Json)) : ExecResult :=
  match makeDbCompletionHandler id "Failed to retrieve resource" dbErr found with
  | Except.error e => { response := Except.error e }
  | Except.ok doc =>
      let header := some (toUTCString doc.lastModified)
      let notModified :=
        match ifModifiedSince with
        | some date => DateUtils.compare date doc.lastModified != -1
        | none => false
      if notModified then
        { response := Except.error ⟨304, "Not Changed"⟩, lastModifiedHeader := header }
      else
        let base := [(name, Json.doc doc)]
        { response := makeTaskCompletionHandler
            (Except.ok (ResBody.obj (if populateQuery then extendObj base details else base))),
          lastModifiedHeader := header }

/-- The `transform` step of `getAll (...).execute`: the result list
under the pluralized name, extended with population details when
`options.populate` was requested. -/
def getAll_transform (pluralName : String) (data : List Document)
    (populateQuery : Bool) (details : List (String × Json)) : ResBody :=
  let base := [(pluralName, Json.docs data)]
  ResBody.obj (if populateQuery then extendObj base details else base)

/-- The `async.reduce` of `setHeaders` in `getAll (...).execute` of
`v1`: starting from the first item's modification time, replace the
memo whenever the next item was modified strictly later. -/
def reduceLastModified (first : Int) (rest : List Document) : Int :=
  rest.foldl
    (fun memo item =>
      if DateUtils.compare memo item.lastModified = -1 then item.lastModified else memo)
    first

/-- Embeds `getAll (...).execute` of `v1`, from the `find` callback on (hooks
at their defaults): an empty result list is returned immediately with
no headers; otherwise, when an `If-Modified-Since` header is present
and no item was modified strictly after it the action fails with
`304 Not Changed`, and in the remaining cases the `Last-Modified`
header is reduced over all items and the full list is returned. -/
def getAll_execute (pluralName : String) (dbErr : JSValue)
    (found : Option (List Document)) (ifModifiedSince : Option Int)
    (populateQuery : Bool) (details : List (String × Json)) : ExecResult :=
  match makeDbCompletionHandler id "Failed to retrieve resource" dbErr found with
  | Except.error e => { response := Except.error e }
  | Except.ok result =>
      match result with
      | [] =>
          { response := makeTaskCompletionHandler
              (Except.ok (getAll_transform pluralName [] populateQuery details)) }
      | d :: rest =>
          let anyNewer :=
            match ifModifiedSince with
            | some date =>
                (d :: rest).any (fun item => DateUtils.compare date item.lastModified == -1)
            | none => true
          if anyNewer then
            { response := makeTaskCompletionHandler
                (Except.ok (getAll_transform pluralName (d :: rest) populateQuery details)),
              lastModifiedHeader :=
                some (toUTCString (reduceLastModified d.lastModified rest)) }
          else
            { response := Except.error ⟨304, "Not Changed"⟩ }

/-- The `{ upsert: ..., new: ... }` options object of the update action. -/
structure UpdateOptions where
  upsert : Bool
  new : Bool
deriving DecidableEq, Repr

/-- The options literal `{ upsert: false, new: true }` that
`update (...).execute` always passes to `findOneAndUpdate`. -/
def updateCallOptions : UpdateOptions := { upsert := false, new := true }

/-- The update document `{ $set: req.body[name] }`. -/
inductive UpdateDoc where
  | set (fields : List (String × Int))
deriving DecidableEq, Repr

/-- Overwrite the listed fields of an association list, appending keys
that were not present. -/
def extendFields (base upd : List (String × Int)) : List (String × Int) :=
  (base.map (fun kv =>
    match upd.find? (fun kv2 => kv2.1 == kv.1) with
    | some kv2 => (kv.1, kv2.2)
    | none => kv))
  ++ upd.filter (fun kv => (base.find? (fun kv2 => kv2.1 == kv.1)).isNone)

/-- Mongo `$set` applied to a document: the listed fields are overwritten. -/
def applySet (doc : Document) (upd : List (String × Int)) : Document :=
  { doc with fields := extendFields doc.fields upd }

/-- Replace the first document with the given id. -/
def replaceFirst (db : List Document) (targetId : String) (newDoc : Document) : List Document :=
  match db with
  | [] => []
  | d :: rest =>
      if d.id == targetId then newDoc :: rest else d :: replaceFirst rest targetId newDoc

/-- Modelled from the spec: `findOneAndUpdate` of the external ORM,
which the spec delegates database semantics to.  On a match the first
matching document gets the `$set` fields applied and the callback
receives the post-update document when `new` is set (the pre-update one
otherwise); on no match a document is inserted only when `upsert` is
set, and without `upsert` the database is unchanged and the callback
receives `null`. -/
def findOneAndUpdate (db : List Document) (filterId : String)
    (update : UpdateDoc) (options : UpdateOptions) : List Document × Option Document :=
  match update with
  | UpdateDoc.set fields =>
      match db.find? (fun d => d.id == filterId) with
      | some doc =>
          let updated := applySet doc fields
          (replaceFirst db doc.id updated, some (if options.new then updated else doc))
      | none =>
          if options.upsert then
            let created := applySet { id := filterId, lastModified := 0, fields := [] } fields
            (db ++ [created], if options.new then some created else none)
          else (db, none)

/-- Embeds `update (...).execute` of `v1` (hooks at their defaults), paired
with the resulting database state: the filter is `{_id: rcId}`, the
update document is `{ $set: req.body[name] }`, and the options are
always `{ upsert: false, new: true }`.  On success the updated event is
emitted with the database result, the `Last-Modified` header is set
from it, and it is wrapped under the model name. -/
def update_execute (name : String) (eventStem : Option String) (dbErr : JSValue)
    (db : List Document) (rcId : String) (body : List (String × Int)) :
    ExecResult × List Document :=
  let call :=
    if isTruthy dbErr then (db, none)
    else findOneAndUpdate db rcId (UpdateDoc.set body) updateCallOptions
  match makeDbCompletionHandler id "Failed to update resource" dbErr call.2 with
  | Except.error e => ({ response := Except.error e }, call.1)
  | Except.ok doc =>
      ({ response := makeTaskCompletionHandler (Except.ok (ResBody.obj [(name, Json.doc doc)])),
         events := [(computeEventName eventStem name "updated", doc)],
         lastModifiedHeader := some (toUTCString doc.lastModified) }, call.1)

/-- Embeds `delete (...).execute` of `v1`, from the `findOneAndRemove`
callback on (hooks at their defaults): on success the deleted event is
emitted with the removed document and the response body is the bare
boolean `true`. -/
def delete_execute (name : String) (eventStem : Option String)
    (dbErr : JSValue) (removed : Option Document) : ExecResult :=
  match makeDbCompletionHandler id "Failed to delete resource" dbErr removed with
  | Except.error e => { response := Except.error e }
  | Except.ok doc =>
      { response := makeTaskCompletionHandler (Except.ok (ResBody.jsonBool true)),
        events := [(computeEventName eventStem name "deleted", doc)] }

/-- The `options` object of a `getAll` query string: the pagination
entries, each `JSValue.undefined` when absent. -/
structure QueryOpts where
  skip : JSValue := JSValue.undefined
  limit : JSValue := JSValue.undefined
  sort : JSValue := JSValue.undefined
deriving DecidableEq, Repr

/-- The options object handed to the model's `find`. -/
structure FindOptions where
  skip : Option JSValue := none
  limit : Option JSValue := none
  sort : Option JSValue := none
deriving DecidableEq, Repr

/-- The query string of a `getAll` request: its `options` member (when
present) and the remaining key/value pairs. -/
structure GetAllQuery where
  options : Option QueryOpts := none
  filterRest : List (String × JSValue) := []
deriving DecidableEq, Repr

/-- The filter and options of the `find` call issued by `getAll`. -/
structure FindCall where
  filter : List (String × JSValue)
  options : FindOptions
deriving DecidableEq, Repr

/-- The copying of the truthy `skip`, `limit` and `sort` entries of the
query-string options onto a base options object, as done by both
revisions of `getAll`. -/
def copyPagination (opts : QueryOpts) (base : FindOptions) : FindOptions :=
  let o := if isTruthy opts.skip then { base with skip := some opts.skip } else base
  let o := if isTruthy opts.limit then { o with limit := some opts.limit } else o
  if isTruthy opts.sort then { o with sort := some opts.sort } else o

/-- The default `prepareOptions` hook of `v1`
(`__onPrepareOptions (req, options, callback)`): it receives the
computed options but calls back with a fresh empty object. -/
def onPrepareOptionsV1 (options : FindOptions) : FindOptions :=
  let _ := options
  {}

/-- The construction of the `find` call by `getAll (...).execute` of
`v1` (hooks at their defaults): when `req.query.options` is present it
is deleted from the query and its truthy `skip`, `limit` and `sort`
entries are copied into a fresh options object, which is then passed
through the `prepareOptions` hook; the filter is the remaining query
(the default `prepareFilter` hook is the identity). -/
def getAll_findCall_v1 (query : GetAllQuery) : FindCall :=
  let computed :=
    match query.options with
    | some opts => copyPagination opts {}
    | none => {}
  { filter := query.filterRest, options := onPrepareOptionsV1 computed }

/-- The construction of the `find` call by `getAll (...).execute` of
`v0` (hooks at their defaults): the filter is
`_.omit (req.query, ['options'])`, and the truthy `skip`, `limit` and
`sort` entries of the query-string options are copied onto the options
object returned by the `prepareOptions` hook (an empty object by
default). -/
def getAll_findCall_v0 (query : GetAllQuery) : FindCall :=
  { filter := query.filterRest,
    options := copyPagination (query.options.getD {}) {} }

/-- A reference value stored on a document path: a single id or an
array of ids (already in `toString` form); an absent or null path is
`none` at lookup. -/
inductive RefValue where
  | one (id : String)
  | many (ids : List String)
deriving DecidableEq, Repr

/-- A populated document: its reference fields, path by path. -/
structure PDoc where
  refs : List (String × RefValue)
deriving DecidableEq, Repr

/-- The static data of one populate entry: the key of the target model
(`Population.getKeyFromModel`, `db.name + ':' + modelName`) and the
pluralized model name indexing `population` and `_ids`.  Whether the
entry is a `PopulateElement` or `PopulateArray` visitor is determined
by the shape of the reference value at the path. -/
structure PopSpec where
  key : String
  plural : String
deriving DecidableEq, Repr

/-- The environment of a population run: the registered populators
(path/spec lists per model key) and the database fetches performed by
`populate.populate`. -/
structure PopEnv where
  populators : String → Option (List (String × PopSpec))
  fetchOne : String → String → PDoc
  fetchMany : String → List String → List PDoc

/-- The mutable state of a `Population` instance: `_ids` and
`population` (a list of pushed batches) per plural key, together with a
log of the fetches performed (plural key and the ids handed to
`populate.populate`). -/
structure PopSt where
  ids : String → List String
  population : String → List (List PDoc)
  fetchLog : List (String × List String)

/-- The state of a freshly constructed `Population`. -/
def initialPopulation : PopSt :=
  { ids := fun _ => [], population := fun _ => [], fetchLog := [] }

/-- Pointwise update of a per-key table. -/
def updateAt {α : Type} (f : String → α) (k : String) (v : α) : String → α :=
  fun q => if q = k then v else f q

/-- Value of a document path. -/
def lookupRef (refs : List (String × RefValue)) (path : String) : Option RefValue :=
  (refs.find? (fun kv => kv.1 == path)).map (fun kv => kv.2)

/-- The `async.filter` of `visitPopulateArray`: ids already present in
the collection are dropped, fresh ids are appended to it as they are
encountered (so a duplicate inside the same array is also dropped).
Returns the fresh ids in order and the grown collection. -/
def freshFilter (coll : List String) : List String → List String × List String
  | [] => ([], coll)
  | i :: rest =>
      if i ∈ coll then freshFilter coll rest
      else
        let r := freshFilter (coll ++ [i]) rest
        (i :: r.1, r.2)

/-- The pending work of a population run, linearizing the sequential
callback chain of `Population`: `pop` is a `_populate` call, `path` the
processing of one populator path of a document, `elem` / `arr` are
`populateElement` / `populateArray` on freshly fetched results. -/
inductive PopTask where
  | pop (populator : List (String × PopSpec)) (data : Option PDoc)
  | path (entry : String × PopSpec) (doc : PDoc)
  | elem (key : String) (doc : PDoc)
  | arr (key : String) (docs : List PDoc)

/-- One step of the population run.  `pop` with null data returns
immediately, otherwise it expands into its path tasks in order.  A
`path` task reads the reference value: a single id already present is
skipped (`visitPopulateElement` calls back with null); a fresh single
id is recorded, fetched, pushed as a batch and followed recursively;
an id array is filtered to its fresh ids, which are recorded, fetched,
pushed as one batch and followed recursively (an empty remainder stops
the path).  `elem` / `arr` look up the populator registered for the
target model key and recurse into `_populate`. -/
def popStep (env : PopEnv) : PopTask → PopSt → PopSt × List PopTask
  | PopTask.pop populator data, s =>
      match data with
      | none => (s, [])
      | some doc => (s, populator.map (fun entry => PopTask.path entry doc))
  | PopTask.path entry doc, s =>
      match lookupRef doc.refs entry.1 with
      | none => (s, [])
      | some (RefValue.one i) =>
          let coll := s.ids entry.2.plural
          if i ∈ coll then (s, [])
          else
            let fetched := env.fetchOne entry.2.key i
            let s' : PopSt :=
              { ids := updateAt s.ids entry.2.plural (coll ++ [i]),
                population := updateAt s.population entry.2.plural
                  (s.population entry.2.plural ++ [[fetched]]),
                fetchLog := s.fetchLog ++ [(entry.2.plural, [i])] }
            (s', [PopTask.elem entry.2.key fetched])
      | some (RefValue.many idList) =>
          let r := freshFilter (s.ids entry.2.plural) idList
          if r.1.isEmpty then
            ({ s with ids := updateAt s.ids entry.2.plural r.2 }, [])
          else
            let fetched := env.fetchMany entry.2.key r.1
            let s' : PopSt :=
              { ids := updateAt s.ids entry.2.plural r.2,
                population := updateAt s.population entry.2.plural
                  (s.population entry.2.plural ++ [fetched]),
                fetchLog := s.fetchLog ++ [(entry.2.plural, r.1)] }
            (s', [PopTask.arr entry.2.key fetched])
  | PopTask.elem key doc, s =>
      match env.populators key with
      | none => (s, [])
      | some populator => (s, [PopTask.pop populator (some doc)])
  | PopTask.arr key docs, s =>
      match env.populators key with
      | none => (s, [])
      | some populator => (s, docs.map (fun d => PopTask.pop populator (some d)))

/-- Run the pending tasks depth-first.  The fuel bounds the recursion
depth; the JavaScript recursion terminates because `_ids` only grows
inside a finite id universe, and every property proved below holds for
every fuel. -/
def popRun (env : PopEnv) : Nat → List PopTask → PopSt → PopSt
  | 0, _, s => s
  | _ + 1, [], s => s
  | n + 1, t :: ts, s =>
      let r := popStep env t s
      popRun env n (r.2 ++ ts) r.1

/-- A `_populate` call on a fresh `Population` instance, as performed
via `populateElement` / `populateArray` for a top-level document. -/
def populationRun (env : PopEnv) (fuel : Nat)
    (populator : List (String × PopSpec)) (data : Option PDoc) : PopSt :=
  popRun env fuel [PopTask.pop populator data] initialPopulation

/-- All ids fetched for a plural key, in fetch order. -/
def fetchedFor (log : List (String × List String)) (p : String) : List String :=
  ((log.filter (fun e => e.1 == p)).map (fun e => e.2)).flatten

/-- The invariant of a population state: per plural key, the id
collection holds no duplicates, the ids fetched so far are exactly the
collected ids, and one batch has been pushed onto the population per
fetch. -/
def PopInv (s : PopSt) : Prop :=
  ∀ p : String,
    (s.ids p).Nodup ∧
    fetchedFor s.fetchLog p = s.ids p ∧
    (s.population p).length = (s.fetchLog.filter (fun e => e.1 == p)).length

/-! ## Helper lemmas -/

theorem compare_eq_neg_one_iff (a b : Int) : DateUtils.compare a b = -1 ↔ a < b := by
  unfold DateUtils.compare
  by_cases h : a < b
  · simp [h]
  · by_cases h2 : b < a <;> simp [h, h2]

theorem compare_bne_neg_one_iff (a b : Int) :
    (DateUtils.compare a b != -1) = true ↔ b ≤ a := by
  rw [bne_iff_ne, ne_eq, compare_eq_neg_one_iff]
  omega

theorem compare_beq_neg_one_iff (a b : Int) :
    (DateUtils.compare a b == -1) = true ↔ a < b := by
  rw [beq_iff_eq, compare_eq_neg_one_iff]

/-! ## C1 -/

/-- C1 (counterexample): with no database error and the result `0`
(a value that is neither null nor undefined, delivered for instance by
a `count` over an empty collection), `makeDbCompletionHandler` still
produces an error, namely `404 Not Found` — a third error case beyond
the two the claim allows. -/
theorem makeDbCompletionHandler_zero_result_not_found :
    makeDbCompletionHandler jsRefine "Failed to count resources" JSValue.null (JSValue.number 0)
      = Except.error ⟨404, "Not Found"⟩ ∧
    JSValue.number 0 ≠ JSValue.null ∧
    JSValue.number 0 ≠ JSValue.undefined ∧
    isTruthy JSValue.null = false :=
  ⟨rfl, by decide, by decide, rfl⟩

/-- C1 (amended): when the database call reports a (truthy) error the
handler fails with an HttpError of status 400 carrying the action's
error message; when the call succeeds but yields a falsy result (null,
undefined, false, 0 or the empty string) it fails with 404 Not Found;
and on a truthy result it succeeds — so these are exactly the error
cases. -/
theorem makeDbCompletionHandler_error_cases (errMsg : String) (err result : JSValue) :
    (isTruthy err = true →
      makeDbCompletionHandler jsRefine errMsg err result = Except.error ⟨400, errMsg⟩) ∧
    (isTruthy err = false → isFalsy result = true →
      makeDbCompletionHandler jsRefine errMsg err result = Except.error ⟨404, "Not Found"⟩) ∧
    (isTruthy err = false → isFalsy result = false →
      makeDbCompletionHandler jsRefine errMsg err result = Except.ok result) := by
  refine ⟨fun h => ?_, fun h1 h2 => ?_, fun h1 h2 => ?_⟩ <;>
    simp [makeDbCompletionHandler, jsRefine, *]

/-- Witness for C1 (amended) at concrete inputs: a truthy error gives
400, a null result gives 404, a truthy result is passed through. -/
theorem makeDbCompletionHandler_error_cases_witness :
    makeDbCompletionHandler jsRefine "boom" (JSValue.boolean true) JSValue.null
      = Except.error ⟨400, "boom"⟩ ∧
    makeDbCompletionHandler jsRefine "boom" JSValue.null JSValue.null
      = Except.error ⟨404, "Not Found"⟩ ∧
    makeDbCompletionHandler jsRefine "boom" JSValue.null (JSValue.number 7)
      = Except.ok (JSValue.number 7) :=
  ⟨(makeDbCompletionHandler_error_cases "boom" (JSValue.boolean true) JSValue.null).1 rfl,
   (makeDbCompletionHandler_error_cases "boom" JSValue.null JSValue.null).2.1 rfl rfl,
   (makeDbCompletionHandler_error_cases "boom" JSValue.null (JSValue.number 7)).2.2 rfl rfl⟩

/-! ## C9 -/

/-- C9: `isProjectionExclusive` returns true on the empty projection;
on a non-empty projection it returns true exactly when the value under
the first enumerated key is `false` or `0`; the remaining entries are
never examined; and the mixed projection `{a: 1, b: 0}` is classified
by its first key alone, hence inclusive. -/
theorem isProjectionExclusive_first_key :
    isProjectionExclusive [] = true ∧
    (∀ (k : String) (v : JSValue) (rest : List (String × JSValue)),
      isProjectionExclusive ((k, v) :: rest)
        = (v == JSValue.boolean false || v == JSValue.number 0)) ∧
    (∀ (k : String) (v : JSValue) (rest rest2 : List (String × JSValue)),
      isProjectionExclusive ((k, v) :: rest) = isProjectionExclusive ((k, v) :: rest2)) ∧
    isProjectionExclusive [("a", JSValue.number 1), ("b", JSValue.number 0)] = false :=
  ⟨rfl, fun _ _ _ => rfl, fun _ _ _ _ => rfl, rfl⟩

/-! ## C5 -/

/-- C5: for the get, update and delete actions, a falsy value under the
resource-id key makes validation fail with `400 Missing resource id`,
and neither the authorize hook nor (for update) the body validation is
consulted — the outcome is the same for every such hook; when the id is
truthy, `checkIdThenAuthorize` passes control to the next step. -/
theorem checkId_missing_resource_id (idKey : String) (req : Request) :
    (isFalsy (req.params idKey) = true →
      (∀ next, checkIdThenAuthorize idKey next req
          = Except.error (CtrlError.http ⟨400, "Missing resource id"⟩)) ∧
      (∀ auth, get_validate idKey auth req
          = Except.error (CtrlError.http ⟨400, "Missing resource id"⟩)) ∧
      (∀ auth, delete_validate idKey auth req
          = Except.error (CtrlError.http ⟨400, "Missing resource id"⟩)) ∧
      (∀ ve auth, update_validate idKey ve auth req
          = Except.error (CtrlError.http ⟨400, "Missing resource id"⟩))) ∧
    (isFalsy (req.params idKey) = false →
      ∀ next, checkIdThenAuthorize idKey next req = next req) := by
  constructor
  · intro h
    refine ⟨fun next => ?_, fun auth => ?_, fun auth => ?_, fun ve auth => ?_⟩ <;>
      simp [checkIdThenAuthorize, get_validate, delete_validate, update_validate, h]
  · intro h next
    simp [checkIdThenAuthorize, h]

/-- Witness for C5: a request whose id parameter is undefined fails
with `400 Missing resource id` under a hook that would otherwise
succeed, and a request with id `"42"` is handed to the next step. -/
theorem checkId_missing_resource_id_witness :
    checkIdThenAuthorize "personId" (fun _ => Except.ok ())
        { params := fun _ => JSValue.undefined }
      = Except.error (CtrlError.http ⟨400, "Missing resource id"⟩) ∧
    checkIdThenAuthorize "personId" (fun _ => Except.ok ())
        { params := fun _ => JSValue.string "42" }
      = Except.ok () :=
  ⟨((checkId_missing_resource_id "personId" { params := fun _ => JSValue.undefined }).1 rfl).1
      (fun _ => Except.ok ()),
   (checkId_missing_resource_id "personId" { params := fun _ => JSValue.string "42" }).2 rfl
      (fun _ => Except.ok ())⟩

/-! ## C6 -/

/-- C6: create, update and delete emit exactly one event on a
successful database call, with the database result as payload and name
`computeEventName` of the respective action; nothing is emitted when
the database call fails (or finds nothing); and `computeEventName`
joins the event stem (when a non-empty string), the controller name and
the action with dots. -/
theorem crud_event_emission (name : String) (stem : Option String) (dbErr : JSValue)
    (res : Option Document) (db : List Document) (rcId : String)
    (body : List (String × Int)) (doc : Document) :
    (isTruthy dbErr = true →
      (create_execute name stem dbErr res).events = [] ∧
      (update_execute name stem dbErr db rcId body).1.events = [] ∧
      (delete_execute name stem dbErr res).events = []) ∧
    ((create_execute name stem JSValue.null none).events = [] ∧
      (delete_execute name stem JSValue.null none).events = []) ∧
    (create_execute name stem JSValue.null (some doc)).events
      = [(computeEventName stem name "created", doc)] ∧
    (∀ found, db.find? (fun d => d.id == rcId) = some found →
      (update_execute name stem JSValue.null db rcId body).1.events
        = [(computeEventName stem name "updated", applySet found body)]) ∧
    (db.find? (fun d => d.id == rcId) = none →
      (update_execute name stem JSValue.null db rcId body).1.events = []) ∧
    (delete_execute name stem JSValue.null (some doc)).events
      = [(computeEventName stem name "deleted", doc)] ∧
    (∀ p a, p.length ≠ 0 →
      computeEventName (some p) name a = p ++ "." ++ name ++ "." ++ a) ∧
    (∀ a, computeEventName none name a = name ++ "." ++ a) ∧
    (∀ a, computeEventName (some "") name a = name ++ "." ++ a) := by
  refine ⟨fun h => ⟨?_, ?_, ?_⟩, ⟨rfl, rfl⟩, rfl, fun found hf => ?_, fun hf => ?_, rfl,
    fun p a hp => ?_, fun a => rfl, fun a => rfl⟩
  · simp [create_execute, makeDbCompletionHandler, h]
  · simp [update_execute, makeDbCompletionHandler, h]
  · simp [delete_execute, makeDbCompletionHandler, h]
  · simp [update_execute, makeDbCompletionHandler, findOneAndUpdate, hf, updateCallOptions,
      isTruthy, isFalsy]
  · simp [update_execute, makeDbCompletionHandler, findOneAndUpdate, hf, updateCallOptions,
      isTruthy, isFalsy]
  · simp [computeEventName, hp]

/-- Witness for C6 at concrete inputs: a failed create emits nothing, a
successful update on a one-document database emits exactly the
`updated` event with the post-update document, and the event-name
formula is exercised for a non-empty stem. -/
theorem crud_event_emission_witness :
    (create_execute "person" (some "app") (JSValue.string "db down") (some ⟨"1", 3, []⟩)).events
      = [] ∧
    (update_execute "person" (some "app") JSValue.null [⟨"1", 3, [("age", 4)]⟩] "1"
        [("age", 5)]).1.events
      = [(computeEventName (some "app") "person" "updated",
          applySet ⟨"1", 3, [("age", 4)]⟩ [("age", 5)])] ∧
    computeEventName (some "app") "person" "updated" = "app.person.updated" :=
  ⟨((crud_event_emission "person" (some "app") (JSValue.string "db down")
        (some ⟨"1", 3, []⟩) [] "" [] ⟨"1", 3, []⟩).1 rfl).1,
   ((crud_event_emission "person" (some "app") JSValue.null none
        [⟨"1", 3, [("age", 4)]⟩] "1" [("age", 5)] ⟨"1", 3, []⟩).2.2.2.1
      ⟨"1", 3, [("age", 4)]⟩ rfl),
   by
     rw [(crud_event_emission "person" (some "app") JSValue.null none [] "" []
       ⟨"1", 3, []⟩).2.2.2.2.2.2.1 "app" "updated" (by decide)]
     rfl⟩

/-! ## C2 -/

/-- C2: for the get action on a found document, an `If-Modified-Since`
date at or after the document's `getLastModified ()` makes the handler
fail with `304 Not Changed` and no 200 response is produced; with the
header absent, or the document modified strictly after the header date,
the handler responds 200 with the document wrapped under the model name
(extended with population details only when populating was requested). -/
theorem get_if_modified_since (name : String) (doc : Document) (pf : Bool)
    (details : List (String × Json)) :
    (∀ date : Int, doc.lastModified ≤ date →
      (get_execute name JSValue.null (some doc) (some date) pf details).response
        = Except.error ⟨304, "Not Changed"⟩) ∧
    ((get_execute name JSValue.null (some doc) none pf details).response
        = Except.ok ⟨200, ResBody.obj
            (if pf then extendObj [(name, Json.doc doc)] details
             else [(name, Json.doc doc)])⟩) ∧
    (∀ date : Int, date < doc.lastModified →
      (get_execute name JSValue.null (some doc) (some date) pf details).response
        = Except.ok ⟨200, ResBody.obj
            (if pf then extendObj [(name, Json.doc doc)] details
             else [(name, Json.doc doc)])⟩) ∧
    ((get_execute name JSValue.null (some doc) none false details).response
        = Except.ok ⟨200, ResBody.obj [(name, Json.doc doc)]⟩) := by
  refine ⟨fun date h => ?_, ?_, fun date h => ?_, ?_⟩
  · have hlt : ¬ date < doc.lastModified := by omega
    simp [get_execute, makeDbCompletionHandler, makeTaskCompletionHandler, isTruthy, isFalsy,
      compare_eq_neg_one_iff, hlt]
  · simp [get_execute, makeDbCompletionHandler, makeTaskCompletionHandler, isTruthy, isFalsy]
  · simp [get_execute, makeDbCompletionHandler, makeTaskCompletionHandler, isTruthy, isFalsy,
      compare_eq_neg_one_iff, h]
  · simp [get_execute, makeDbCompletionHandler, makeTaskCompletionHandler, isTruthy, isFalsy]

/-- Witness for C2 at concrete inputs: a header date equal to the
modification time yields 304, a strictly earlier one yields the 200
envelope. -/
theorem get_if_modified_since_witness :
    (get_execute "person" JSValue.null (some ⟨"1", 50, []⟩) (some 50) false []).response
      = Except.error ⟨304, "Not Changed"⟩ ∧
    (get_execute "person" JSValue.null (some ⟨"1", 50, []⟩) (some 49) false []).response
      = Except.ok ⟨200, ResBody.obj [("person", Json.doc ⟨"1", 50, []⟩)]⟩ :=
  ⟨(get_if_modified_since "person" ⟨"1", 50, []⟩ false []).1 50 (by decide),
   by
     rw [(get_if_modified_since "person" ⟨"1", 50, []⟩ false []).2.2.1 49 (by decide)]
     rfl⟩

/-! ## C4 -/

/-- C4: for getAll with an `If-Modified-Since` header and a non-empty
result list, when no returned item was modified strictly after the
header date the handler fails with `304 Not Changed`; when at least one
was, the full result list is passed on to the 200 response. -/
theorem getAll_if_modified_since (pluralName : String) (d : Document)
    (rest : List Document) (date : Int) (pf : Bool) (details : List (String × Json)) :
    ((∀ x ∈ d :: rest, x.lastModified ≤ date) →
      (getAll_execute pluralName JSValue.null (some (d :: rest)) (some date) pf details).response
        = Except.error ⟨304, "Not Changed"⟩) ∧
    ((∃ x ∈ d :: rest, date < x.lastModified) →
      (getAll_execute pluralName JSValue.null (some (d :: rest)) (some date) pf details).response
        = Except.ok ⟨200, getAll_transform pluralName (d :: rest) pf details⟩) := by
  constructor
  · intro hall
    have hany : ((d :: rest).any
        (fun item => DateUtils.compare date item.lastModified == -1)) = false := by
      rw [List.any_eq_false]
      intro x hx
      have hle := hall x hx
      have hnlt : ¬ date < x.lastModified := by omega
      simp only [Bool.not_eq_true, beq_eq_false_iff_ne, ne_eq, compare_eq_neg_one_iff]
      exact hnlt
    simp [getAll_execute, makeDbCompletionHandler, makeTaskCompletionHandler,
      isTruthy, isFalsy, hany]
  · intro hex
    obtain ⟨x, hx, hlt⟩ := hex
    have hany : ((d :: rest).any
        (fun item => DateUtils.compare date item.lastModified == -1)) = true := by
      rw [List.any_eq_true]
      exact ⟨x, hx, by rw [compare_beq_neg_one_iff]; exact hlt⟩
    simp [getAll_execute, makeDbCompletionHandler, makeTaskCompletionHandler,
      isTruthy, isFalsy, hany]

/-- Witness for C4 at concrete inputs: with both items stale the list
is not returned (304); with one fresh item the full two-element list is
returned. -/
theorem getAll_if_modified_since_witness :
    (getAll_execute "people" JSValue.null (some [⟨"1", 10, []⟩, ⟨"2", 20, []⟩])
        (some 20) false []).response
      = Except.error ⟨304, "Not Changed"⟩ ∧
    (getAll_execute "people" JSValue.null (some [⟨"1", 10, []⟩, ⟨"2", 20, []⟩])
        (some 15) false []).response
      = Except.ok ⟨200, getAll_transform "people" [⟨"1", 10, []⟩, ⟨"2", 20, []⟩] false []⟩ :=
  ⟨(getAll_if_modified_since "people" ⟨"1", 10, []⟩ [⟨"2", 20, []⟩] 20 false []).1
      (by intro x hx; fin_cases hx <;> decide),
   (getAll_if_modified_since "people" ⟨"1", 10, []⟩ [⟨"2", 20, []⟩] 15 false []).2
      ⟨⟨"2", 20, []⟩, by simp, by decide⟩⟩

/-! ## C3 -/

theorem reduceLastModified_cons (f : Int) (d : Document) (rest : List Document) :
    reduceLastModified f (d :: rest)
      = reduceLastModified
          (if DateUtils.compare f d.lastModified = -1 then d.lastModified else f) rest := rfl

theorem reduceLastModified_le (rest : List Document) :
    ∀ f : Int, f ≤ reduceLastModified f rest := by
  induction rest with
  | nil => intro f; simp [reduceLastModified]
  | cons d rest ih =>
    intro f
    rw [reduceLastModified_cons]
    refine le_trans ?_ (ih _)
    by_cases h : DateUtils.compare f d.lastModified = -1 <;> simp [h]
    have := (compare_eq_neg_one_iff f d.lastModified).1 h
    omega

theorem reduceLastModified_bound (rest : List Document) :
    ∀ f : Int, ∀ x ∈ rest, x.lastModified ≤ reduceLastModified f rest := by
  induction rest with
  | nil => intro f x hx; simp at hx
  | cons d rest ih =>
    intro f x hx
    rw [reduceLastModified_cons]
    rcases List.mem_cons.1 hx with hxd | hxr
    · subst hxd
      refine le_trans ?_ (reduceLastModified_le rest _)
      by_cases h : DateUtils.compare f x.lastModified = -1 <;> simp [h]
      rw [compare_eq_neg_one_iff] at h
      omega
    · exact ih _ x hxr

theorem reduceLastModified_attained (rest : List Document) :
    ∀ f : Int, reduceLastModified f rest = f ∨
      reduceLastModified f rest ∈ rest.map (fun x => x.lastModified) := by
  induction rest with
  | nil => intro f; left; simp [reduceLastModified]
  | cons d rest ih =>
    intro f
    rw [reduceLastModified_cons]
    by_cases h : DateUtils.compare f d.lastModified = -1 <;> simp only [h, if_pos, if_neg,
      ite_true, ite_false]
    · rcases ih d.lastModified with h1 | h1
      · right; simp [h1]
      · right; simp; right; simpa using h1
    · rcases ih f with h1 | h1
      · left; exact h1
      · right; simp; right; simpa using h1

/-- The reduced modification time of a non-empty list is the maximum of
the items' modification times, and it is attained by some item. -/
theorem reduceLastModified_is_max (d : Document) (rest : List Document) :
    reduceLastModified d.lastModified rest ∈ (d :: rest).map (fun x => x.lastModified) ∧
    ∀ x ∈ d :: rest, x.lastModified ≤ reduceLastModified d.lastModified rest := by
  constructor
  · rcases reduceLastModified_attained rest d.lastModified with h | h
    · simp [h]
    · simp only [List.map_cons, List.mem_cons]; right; exact h
  · intro x hx
    rcases List.mem_cons.1 hx with hxd | hxr
    · subst hxd; exact reduceLastModified_le rest _
    · exact reduceLastModified_bound rest _ x hxr

/-- C3: for getAll, an empty result list is returned as-is with no
`Last-Modified` header regardless of any `If-Modified-Since` header;
for a non-empty result list, whenever a 200 response is produced the
`Last-Modified` header is the maximum of the items' `getLastModified`
times rendered as a UTC string (and with no `If-Modified-Since` header
the 200 response with that header is produced unconditionally). -/
theorem getAll_last_modified_header (pluralName : String) (pf : Bool)
    (details : List (String × Json)) :
    (∀ ims, getAll_execute pluralName JSValue.null (some []) ims pf details
        = { response := Except.ok ⟨200, getAll_transform pluralName [] pf details⟩ }) ∧
    (∀ (d : Document) (rest : List Document) (ims : Option Int),
      (getAll_execute pluralName JSValue.null (some (d :: rest)) ims pf details).response.isOk
          = true →
      (getAll_execute pluralName JSValue.null (some (d :: rest)) ims pf details).lastModifiedHeader
          = some (toUTCString (reduceLastModified d.lastModified rest)) ∧
      reduceLastModified d.lastModified rest ∈ (d :: rest).map (fun x => x.lastModified) ∧
      ∀ x ∈ d :: rest, x.lastModified ≤ reduceLastModified d.lastModified rest) ∧
    (∀ (d : Document) (rest : List Document),
      getAll_execute pluralName JSValue.null (some (d :: rest)) none pf details
        = { response := Except.ok ⟨200, getAll_transform pluralName (d :: rest) pf details⟩,
            lastModifiedHeader := some (toUTCString (reduceLastModified d.lastModified rest)) }) := by
  refine ⟨fun ims => rfl, fun d rest ims h => ?_, fun d rest => rfl⟩
  refine ⟨?_, reduceLastModified_is_max d rest⟩
  cases ims with
  | none => rfl
  | some date =>
    by_cases hany : ((d :: rest).any
        (fun item => DateUtils.compare date item.lastModified == -1)) = true
    · simp [getAll_execute, makeDbCompletionHandler, isTruthy, isFalsy, hany]
    · rw [Bool.not_eq_true] at hany
      simp [getAll_execute, makeDbCompletionHandler, isTruthy, isFalsy, hany,
        Except.isOk, Except.toBool] at h

/-- Witness for C3 at concrete inputs: a two-element list with no
`If-Modified-Since` header is returned with its maximal modification
time in the `Last-Modified` header. -/
theorem getAll_last_modified_header_witness :
    (getAll_execute "people" JSValue.null (some [⟨"1", 10, []⟩, ⟨"2", 20, []⟩])
        none false []).lastModifiedHeader
      = some (toUTCString (reduceLastModified 10 [⟨"2", 20, []⟩])) ∧
    reduceLastModified 10 [⟨"2", 20, []⟩] = 20 :=
  ⟨((getAll_last_modified_header "people" false []).2.1 ⟨"1", 10, []⟩ [⟨"2", 20, []⟩]
      none rfl).1,
   by decide⟩

/-! ## C8 -/

/-- C8: the update action always calls `findOneAndUpdate` with the
options `{ upsert: false, new: true }` and the update document
`{ $set: req.body[name] }`; hence a request whose id matches no
document yields `404 Not Found` and leaves the database unchanged (no
document is created), and a matching request responds 200 with the
post-update document wrapped under the model name. -/
theorem update_upsert_false_new_true (name : String) (stem : Option String)
    (db : List Document) (rcId : String) (body : List (String × Int)) :
    (updateCallOptions.upsert = false ∧ updateCallOptions.new = true) ∧
    ((update_execute name stem JSValue.null db rcId body).2
        = (findOneAndUpdate db rcId (UpdateDoc.set body) updateCallOptions).1) ∧
    (db.find? (fun d => d.id == rcId) = none →
      (update_execute name stem JSValue.null db rcId body).1.response
          = Except.error ⟨404, "Not Found"⟩ ∧
      (update_execute name stem JSValue.null db rcId body).2 = db) ∧
    (∀ found, db.find? (fun d => d.id == rcId) = some found →
      (update_execute name stem JSValue.null db rcId body).1.response
          = Except.ok ⟨200, ResBody.obj [(name, Json.doc (applySet found body))]⟩) := by
  refine ⟨⟨rfl, rfl⟩, ?_, fun hf => ?_, fun found hf => ?_⟩
  · simp [update_execute, makeDbCompletionHandler, isTruthy, isFalsy]
    cases hfind : db.find? (fun d => d.id == rcId) <;>
      simp [findOneAndUpdate, hfind, updateCallOptions]
  · constructor <;>
      simp [update_execute, makeDbCompletionHandler, findOneAndUpdate, hf,
        updateCallOptions, isTruthy, isFalsy]
  · simp [update_execute, makeDbCompletionHandler, makeTaskCompletionHandler,
      findOneAndUpdate, hf, updateCallOptions, isTruthy, isFalsy]

/-- Witness for C8 at concrete inputs: updating a missing id returns
404 and creates nothing; updating a present id returns the post-update
document. -/
theorem update_upsert_false_new_true_witness :
    (update_execute "person" none JSValue.null [⟨"1", 3, [("age", 4)]⟩] "2"
        [("age", 5)]).1.response
      = Except.error ⟨404, "Not Found"⟩ ∧
    (update_execute "person" none JSValue.null [⟨"1", 3, [("age", 4)]⟩] "2"
        [("age", 5)]).2
      = [⟨"1", 3, [("age", 4)]⟩] ∧
    (update_execute "person" none JSValue.null [⟨"1", 3, [("age", 4)]⟩] "1"
        [("age", 5)]).1.response
      = Except.ok ⟨200, ResBody.obj [("person",
          Json.doc (applySet ⟨"1", 3, [("age", 4)]⟩ [("age", 5)]))]⟩ :=
  ⟨((update_upsert_false_new_true "person" none [⟨"1", 3, [("age", 4)]⟩] "2"
      [("age", 5)]).2.2.1 (by decide)).1,
   ((update_upsert_false_new_true "person" none [⟨"1", 3, [("age", 4)]⟩] "2"
      [("age", 5)]).2.2.1 (by decide)).2,
   (update_upsert_false_new_true "person" none [⟨"1", 3, [("age", 4)]⟩] "1"
      [("age", 5)]).2.2.2 ⟨"1", 3, [("age", 4)]⟩ (by decide)⟩

/-! ## C7 -/

/-- C7: the claim holds of revision `v0` of getAll — the options key is
removed from the filter and the truthy `skip`, `limit`, `sort` entries
are passed to `find` — but revision `v1` hands the computed options to
the default `prepareOptions` hook, which discards them: at the concrete
query `{options: {skip: 10}}` the `find` call of `v1` carries empty
options while `v0` carries `skip: 10` (the filter is free of the
options key in both). -/
theorem getAll_v1_drops_pagination :
    getAll_findCall_v1
        { options := some { skip := JSValue.number 10 }, filterRest := [("age", JSValue.number 3)] }
      = { filter := [("age", JSValue.number 3)], options := {} } ∧
    getAll_findCall_v0
        { options := some { skip := JSValue.number 10 }, filterRest := [("age", JSValue.number 3)] }
      = { filter := [("age", JSValue.number 3)],
          options := { skip := some (JSValue.number 10) } } ∧
    (∀ query : GetAllQuery,
      getAll_findCall_v0 query
        = { filter := query.filterRest,
            options := copyPagination (query.options.getD {}) {} }) :=
  ⟨rfl, rfl, fun _ => rfl⟩

/-! ## C10 -/

theorem freshFilter_grows (idList : List String) :
    ∀ coll : List String,
      (freshFilter coll idList).2 = coll ++ (freshFilter coll idList).1 ∧
      (coll.Nodup → (freshFilter coll idList).2.Nodup) := by
  induction idList with
  | nil => intro coll; simp [freshFilter]
  | cons i rest ih =>
    intro coll
    by_cases hmem : i ∈ coll
    · simpa [freshFilter, hmem] using ih coll
    · have h2 := ih (coll ++ [i])
      constructor
      · simp [freshFilter, hmem, h2.1]
      · intro hnd
        simp only [freshFilter, hmem, if_neg, ite_false]
        apply h2.2
        simp [List.nodup_append, hnd, hmem]

theorem fetchedFor_append (l1 l2 : List (String × List String)) (p : String) :
    fetchedFor (l1 ++ l2) p = fetchedFor l1 p ++ fetchedFor l2 p := by
  simp [fetchedFor, List.filter_append]

theorem fetchedFor_single (q p : String) (ids : List String) :
    fetchedFor [(q, ids)] p = if q = p then ids else [] := by
  by_cases h : q = p <;> simp [fetchedFor, h]

theorem filterLog_append_single (log : List (String × List String))
    (q p : String) (ids : List String) :
    ((log ++ [(q, ids)]).filter (fun e => e.1 == p)).length
      = (log.filter (fun e => e.1 == p)).length + (if q = p then 1 else 0) := by
  by_cases h : q = p <;> simp [List.filter_append, h]

theorem popStep_inv (env : PopEnv) (t : PopTask) (s : PopSt) (h : PopInv s) :
    PopInv (popStep env t s).1 := by
  cases t with
  | pop populator data => cases data <;> simpa [popStep] using h
  | elem key doc => cases henv : env.populators key <;> simpa [popStep, henv] using h
  | arr key docs => cases henv : env.populators key <;> simpa [popStep, henv] using h
  | path entry doc =>
    cases href : lookupRef doc.refs entry.1 with
    | none => simpa [popStep, href] using h
    | some rv =>
      cases rv with
      | one i =>
        by_cases hmem : i ∈ s.ids entry.2.plural
        · simpa [popStep, href, hmem] using h
        · intro p
          obtain ⟨hnd, hfetch, hlen⟩ := h p
          by_cases hp : p = entry.2.plural
          · subst hp
            refine ⟨?_, ?_, ?_⟩
            · simp [popStep, href, hmem, updateAt, List.nodup_append, hnd]
            · simp [popStep, href, hmem, updateAt, fetchedFor_append, fetchedFor_single,
                hfetch]
            · simp [popStep, href, hmem, updateAt, filterLog_append_single, hlen]
          · refine ⟨?_, ?_, ?_⟩
            · simpa [popStep, href, hmem, updateAt, hp] using hnd
            · simpa [popStep, href, hmem, updateAt, hp, fetchedFor_append,
                fetchedFor_single, Ne.symm hp] using hfetch
            · simpa [popStep, href, hmem, updateAt, hp, filterLog_append_single,
                Ne.symm hp] using hlen
      | many idList =>
        have hgrow := freshFilter_grows idList (s.ids entry.2.plural)
        by_cases hempty : (freshFilter (s.ids entry.2.plural) idList).1.isEmpty
        · intro p
          obtain ⟨hnd, hfetch, hlen⟩ := h p
          have hcoll : (freshFilter (s.ids entry.2.plural) idList).2 = s.ids entry.2.plural := by
            rw [hgrow.1, List.isEmpty_iff.1 hempty]
            simp
          by_cases hp : p = entry.2.plural
          · subst hp
            refine ⟨?_, ?_, ?_⟩
            · simpa [popStep, href, hempty, updateAt, hcoll] using hnd
            · simpa [popStep, href, hempty, updateAt, hcoll] using hfetch
            · simpa [popStep, href, hempty, updateAt, hcoll] using hlen
          · refine ⟨?_, ?_, ?_⟩
            · simpa [popStep, href, hempty, updateAt, hp] using hnd
            · simpa [popStep, href, hempty, updateAt, hp] using hfetch
            · simpa [popStep, href, hempty, updateAt, hp] using hlen
        · intro p
          obtain ⟨hnd, hfetch, hlen⟩ := h p
          by_cases hp : p = entry.2.plural
          · subst hp
            refine ⟨?_, ?_, ?_⟩
            · have hres := hgrow.2 hnd
              simpa [popStep, href, hempty, updateAt] using hres
            · simp [popStep, href, hempty, updateAt, fetchedFor_append, fetchedFor_single,
                hfetch, hgrow.1]
            · simp [popStep, href, hempty, updateAt, filterLog_append_single, hlen]
          · refine ⟨?_, ?_, ?_⟩
            · simpa [popStep, href, hempty, updateAt, hp] using hnd
            · simpa [popStep, href, hempty, updateAt, hp, fetchedFor_append,
                fetchedFor_single, Ne.symm hp] using hfetch
            · simpa [popStep, href, hempty, updateAt, hp, filterLog_append_single,
                Ne.symm hp] using hlen

theorem popRun_inv (env : PopEnv) :
    ∀ (fuel : Nat) (tasks : List PopTask) (s : PopSt), PopInv s → PopInv (popRun env fuel tasks s) := by
  intro fuel
  induction fuel with
  | zero => intro tasks s h; simpa [popRun] using h
  | succ n ih =>
    intro tasks s h
    cases tasks with
    | nil => simpa [popRun] using h
    | cons t ts =>
      simp only [popRun]
      exact ih _ _ (popStep_inv env t s h)

theorem initialPopulation_inv : PopInv initialPopulation := by
  intro p
  simp [initialPopulation, fetchedFor]

/-- C10: a population run started on a fresh `Population` instance
keeps, for every plural collection key, the `_ids` array free of
duplicates; the ids handed to the fetches are exactly the collected
ids, so each referenced id is fetched at most once; and exactly one
batch is appended to `population` per fetch — hence the same referenced
document is fetched and appended at most once per instance, even
across recursive population. -/
theorem population_ids_fetched_once (env : PopEnv) (fuel : Nat)
    (populator : List (String × PopSpec)) (data : Option PDoc) (p : String) :
    ((populationRun env fuel populator data).ids p).Nodup ∧
    fetchedFor (populationRun env fuel populator data).fetchLog p
      = (populationRun env fuel populator data).ids p ∧
    ((populationRun env fuel populator data).population p).length
      = ((populationRun env fuel populator data).fetchLog.filter (fun e => e.1 == p)).length :=
  popRun_inv env fuel [PopTask.pop populator data] initialPopulation initialPopulation_inv p
